import Mathlib

/-!
Shallow embedding of the med-ydb repository (read-only MUMPS-style global
explorer and aggregator) and verification of its specification claims.

Conventions used throughout this development:
* Python strings are modelled as Lean `String` / `List Char`.
* Python functions that can raise an uncaught exception are modelled with an
  `Option` result, `none` meaning "raises".
* Store/engine faults (`YDBError` etc.) are modelled with `Except String`,
  the payload being the exception message.
* Machine integers are `Int`/`Nat` (Python ints are unbounded, so no
  wrap-around modelling is needed).
-/

/-! ## Piece codec (`cli/utils.py`) -/

/-- Model of Python `s.split(c)` for a single-character separator `c`
(every call site in the repository uses the one-character delimiters
`"^"`, `"."` or `","`).  `splitCh c [] = [[]]`, matching Python where
`"".split("^") == [""]`. -/
def splitCh (c : Char) : List Char → List (List Char)
  | [] => [[]]
  | x :: xs =>
    let r := splitCh c xs
    if x = c then [] :: r
    else
      match r with
      | [] => [[x]]
      | h :: t => (x :: h) :: t

/-- Model of Python `c.join(pieces)` for a single-character separator. -/
def joinCh (c : Char) : List (List Char) → List Char
  | [] => []
  | [p] => p
  | p :: q :: rest => p ++ c :: joinCh c (q :: rest)

/-- Number of occurrences of character `c`, modelling Python `s.count(c)`
for a single-character needle. -/
def countCh (c : Char) (l : List Char) : Nat :=
  l.countP (fun x => x = c)

/-- `decodePieces` of the specification: the delimiter-separated piece
sequence of a composite value, i.e. Python `raw.split(delim)`. -/
def decodePieces (delim : Char) (s : String) : List String :=
  (splitCh delim s.toList).map String.mk

/-- Python `delim.join(pieces)` on strings. -/
def joinPieces (delim : Char) (ps : List String) : String :=
  String.mk (joinCh delim (ps.map String.toList))

/-- Model of Python list subscription `l[i]`, including negative-index
semantics: `l[i]` for `i < 0` means `l[len l + i]`; an index out of range on
either side raises `IndexError`, modelled as `none`. -/
def pyGetItem {α : Type} (l : List α) (i : Int) : Option α :=
  if 0 ≤ i then l.get? i.toNat
  else if 0 ≤ (l.length : Int) + i then l.get? ((l.length : Int) + i).toNat
  else none

/-- `get_piece` from `cli/utils.py`:

    def get_piece(data, piece_num, delimiter="^"):
        if not data:
            return ""
        pieces = data.split(delimiter)
        return pieces[piece_num - 1] if len(pieces) >= piece_num else ""

`none` models an uncaught `IndexError` (reachable for negative
`piece_num`, via Python negative indexing in `pieces[piece_num - 1]`). -/
def get_piece (data : String) (piece_num : Int) (delimiter : Char := '^') :
    Option String :=
  if data = "" then some ""
  else
    let pieces := splitCh delimiter data.toList
    if piece_num ≤ (pieces.length : Int) then
      (pyGetItem pieces (piece_num - 1)).map String.mk
    else
      some ""

/-! ### Python `int(str)` -/

/-- Digit-string body accepted by Python `int()` after sign removal:
one or more ASCII digits, with single underscores allowed between digits. -/
def pyIntBody : List Char → Bool
  | [] => false
  | [c] => c.isDigit
  | c :: '_' :: rest => c.isDigit && pyIntBody rest
  | c :: rest => c.isDigit && pyIntBody rest

/-- Numeric value of a digit body (underscores skipped). -/
def digitsVal (l : List Char) : Nat :=
  (l.filter (fun c => c ≠ '_')).foldl (fun acc c => 10 * acc + (c.toNat - 48)) 0

/-- ASCII whitespace as recognised by Python `str.strip()`. -/
def pyIsSpace (c : Char) : Bool :=
  c = ' ' || c = '\t' || c = '\n' || c = '\r' || c = '\x0b' || c = '\x0c'

/-- Model of Python `s.strip()` (whitespace removal at both ends). -/
def pyStrip (l : List Char) : List Char :=
  ((l.dropWhile pyIsSpace).reverse.dropWhile pyIsSpace).reverse

/-- Model of Python `int(s)` on a decimal string: strips surrounding
whitespace, accepts an optional sign, then a digit body; any other input
raises `ValueError` (`none`).  (Non-ASCII digits, accepted by CPython, do
not occur in this repository's data and are not modelled.) -/
def pyInt (s : String) : Option Int :=
  match pyStrip s.toList with
  | '+' :: rest => if pyIntBody rest then some (digitsVal rest) else none
  | '-' :: rest => if pyIntBody rest then some (-(digitsVal rest : Int)) else none
  | rest => if pyIntBody rest then some (digitsVal rest) else none

/-! ### Decimal rendering (kernel-reducible `toString` for digits) -/

/-- Decimal digits of `n`, most significant first (`fuel`-driven so that the
kernel can evaluate it; call with `fuel > n`). -/
def natDigitsAux : Nat → Nat → List Char
  | 0, _ => []
  | fuel + 1, n =>
    if n < 10 then [Char.ofNat (48 + n)]
    else natDigitsAux fuel (n / 10) ++ [Char.ofNat (48 + n % 10)]

/-- Decimal rendering of a natural number. -/
def natToString (n : Nat) : String :=
  String.mk (natDigitsAux (n + 1) n)

/-- Decimal rendering of an integer. -/
def intToString (i : Int) : String :=
  if i < 0 then "-" ++ natToString (-i).toNat else natToString i.toNat

/-- Two-digit zero-padded rendering (strftime `%m`, `%d`, `%H`, `%M`, `%S`),
for values in `0..99`. -/
def pad2 (i : Int) : String :=
  if i < 10 then "0" ++ intToString i else intToString i

/-! ### Calendar arithmetic (Python `datetime` / `timedelta` model) -/

/-- Gregorian leap-year test. -/
def isLeap (y : Int) : Bool :=
  (y % 4 = 0 && y % 100 ≠ 0) || y % 400 = 0

/-- Length of month `m` in year `y` (months `1..12`). -/
def daysInMonth (y m : Int) : Int :=
  if m = 2 then (if isLeap y then 29 else 28)
  else if m = 4 || m = 6 || m = 9 || m = 11 then 30
  else 31

/-- Validity condition enforced by the `datetime.datetime(y, m, d)`
constructor (which raises `ValueError` outside it). -/
def isValidDate (y m d : Int) : Bool :=
  1 ≤ y && y ≤ 9999 && 1 ≤ m && m ≤ 12 && 1 ≤ d && d ≤ daysInMonth y m

/-- Day number of a Gregorian civil date, counted in days since 1970-01-01
(standard era-based conversion over `Int` with floor division). -/
def daysFromCivil (y m d : Int) : Int :=
  let y' := y - (if m ≤ 2 then 1 else 0)
  let era := Int.fdiv y' 400
  let yoe := y' - era * 400
  let mp := if 2 < m then m - 3 else m + 9
  let doy := (153 * mp + 2) / 5 + d - 1
  let doe := yoe * 365 + yoe / 4 - yoe / 100 + doy
  era * 146097 + doe - 719468

/-- Civil date `(y, m, d)` of a day number (inverse direction of
`daysFromCivil`, same era-based algorithm). -/
def civilFromDays (z : Int) : Int × Int × Int :=
  let z' := z + 719468
  let era := Int.fdiv z' 146097
  let doe := z' - era * 146097
  let yoe := (doe - doe / 1460 + doe / 36524 - doe / 146096) / 365
  let y := yoe + era * 400
  let doy := doe - (365 * yoe + yoe / 4 - yoe / 100)
  let mp := (5 * doy + 2) / 153
  let d := doy - (153 * mp + 2) / 5 + 1
  let m := mp + (if mp < 10 then 3 else -9)
  (if m ≤ 2 then y + 1 else y, m, d)

/-- Smallest day number representable by `datetime` (0001-01-01). -/
def dtMinDay : Int := daysFromCivil 1 1 1

/-- Largest day number representable by `datetime` (9999-12-31). -/
def dtMaxDay : Int := daysFromCivil 9999 12 31

/-! ### FileMan dates (`fm_to_date` in `cli/utils.py`) -/

/-- Model of the Python slice `l[a:b]` for `0 ≤ a ≤ b`. -/
def pySlice (l : List Char) (a b : Nat) : List Char :=
  (l.drop a).take (b - a)

/-- `str(fm_date).split(".")[0]` — the integer part of a FileMan date. -/
def fmDatePart (raw : String) : List Char :=
  (splitCh '.' raw.toList).headD []

/-- `int(date_part[:3])` — years since 1700. -/
def fmY3 (raw : String) : Option Int :=
  pyInt (String.mk ((fmDatePart raw).take 3))

/-- `int(date_part[3:5])` — month. -/
def fmMonth (raw : String) : Option Int :=
  pyInt (String.mk (pySlice (fmDatePart raw) 3 5))

/-- `int(date_part[5:7])` — day. -/
def fmDay (raw : String) : Option Int :=
  pyInt (String.mk (pySlice (fmDatePart raw) 5 7))

/-- `fm_to_date` from `cli/utils.py` (with the default format string
`"%m/%d/%Y"`, the one used at every call site):

    if not fm_date or not str(fm_date).strip():
        return "N/A"
    try:
        date_part = str(fm_date).split(".")[0]
        year = int(date_part[:3]) + 1700
        month = int(date_part[3:5])
        day = int(date_part[5:7])
        dt = datetime(year, month, day)
        return dt.strftime(format_str)
    except (ValueError, IndexError):
        return f"Invalid Date ({fm_date})"

The reachable years lie in `1601..2699`, so `%Y` always renders exactly
four digits. -/
def fm_to_date (fm_date : String) : String :=
  if fm_date = "" || pyStrip fm_date.toList = [] then "N/A"
  else
    match fmY3 fm_date, fmMonth fm_date, fmDay fm_date with
    | some y3, some mo, some dy =>
      let year := y3 + 1700
      if isValidDate year mo dy then
        pad2 mo ++ "/" ++ pad2 dy ++ "/" ++ intToString year
      else "Invalid Date (" ++ fm_date ++ ")"
    | _, _, _ => "Invalid Date (" ++ fm_date ++ ")"

/-! ### HOROLOG timestamps (`horolog_to_datetime` in `cli/02_explore_isv.py`) -/

/-- Render of `strftime("%Y-%m-%d %H:%M:%S")`.  The year is rendered
unpadded (glibc behaviour; identical to zero-padding for years ≥ 1000). -/
def fmtTs (y m d h mi s : Int) : String :=
  intToString y ++ "-" ++ pad2 m ++ "-" ++ pad2 d ++ " " ++
    pad2 h ++ ":" ++ pad2 mi ++ ":" ++ pad2 s

/-- `horolog_to_datetime` from `cli/02_explore_isv.py`:

    try:
        days_str, seconds_str = horolog_str.split(",")
        days = int(days_str)
        seconds = int(seconds_str)
        base_date = datetime(1840, 12, 31)
        target_datetime = base_date + timedelta(days=days, seconds=seconds)
        return target_datetime.strftime("%Y-%m-%d %H:%M:%S")
    except (ValueError, AttributeError):
        return "<invalid HOROLOG format>"

`timedelta` normalises to `(days + seconds // 86400)` days plus
`seconds % 86400` seconds and requires its day count to stay within
±999999999; `datetime.__add__` requires the resulting date to stay within
years 1..9999.  Both limits raise `OverflowError`, which the `except`
clause does NOT catch — modelled as `none` (uncaught fault).  This
function is the split-unpack-parse stage (whose `ValueError`s the
`except` clause does catch: `none` here means the sentinel is returned);
`horolog_to_datetime` below adds the date arithmetic. -/
def horologParse (raw : String) : Option (Int × Int) :=
  match (splitCh ',' raw.toList).map String.mk with
  | [days_str, seconds_str] =>
    match pyInt days_str, pyInt seconds_str with
    | some days, some seconds => some (days, seconds)
    | _, _ => none
  | _ => none

/-- Date-arithmetic and rendering stage of `horolog_to_datetime`
(see `horologParse` above for the parsing stage and the module comment for
the overflow modelling). -/
def horolog_to_datetime (horolog_str : String) : Option String :=
  match horologParse horolog_str with
  | some (days, seconds) =>
    if days + Int.fdiv seconds 86400 < -999999999 ||
        999999999 < days + Int.fdiv seconds 86400 then none
    else
      if daysFromCivil 1840 12 31 + (days + Int.fdiv seconds 86400) <
          dtMinDay ||
          dtMaxDay <
            daysFromCivil 1840 12 31 + (days + Int.fdiv seconds 86400) then
        none
      else
        match civilFromDays
            (daysFromCivil 1840 12 31 + (days + Int.fdiv seconds 86400)) with
        | (y, m, d) =>
          some (fmtTs y m d (Int.fmod seconds 86400 / 3600)
            (Int.fmod seconds 86400 % 3600 / 60) (Int.fmod seconds 86400 % 60))
  | none => some "<invalid HOROLOG format>"

/-! ## Bounded safe traversal
(`cli/07_security_explorer.py` and `app/03_explore_allowlisted.py`)

Values are modelled post-decoding as `Option String` (`none` = node without
a value); the `--raw`/undecodable-bytes presentation branch (`repr(value)`)
is outside every claim and not modelled.  A per-child read result is
`Except String (Option String)` (`error` = `YDBError` with its message). -/

/-- Allowlist of `cli/07_security_explorer.py`. -/
def ALLOWED_GLOBALS_07 : List String := ["^DIC", "^DPT", "^VA", "^XWB"]

/-- Sensitive (redacted-by-default) roots of `cli/07_security_explorer.py`. -/
def SENSITIVE_GLOBALS : List String := ["^DPT", "^VA"]

/-- Allowlist of `app/03_explore_allowlisted.py`. -/
def ALLOWED_GLOBALS_03 : List String := ["^DIC", "^DPT", "^VA"]

/-- `normalize_global_name`: prefix `^` when absent (both explorer files). -/
def normalize_global_name (name : String) : String :=
  match name.toList with
  | '^' :: _ => name
  | _ => "^" ++ name

/-- `as_text` (07) / `to_display` (03) on the modelled value space. -/
def as_text : Option String → String
  | none => "<no value>"
  | some s => s

/-- `redact_text` from `cli/07_security_explorer.py`:

    pieces = text.count("^") + 1 if text else 0
    return "<redacted: {0} chars, {1} piece(s)>".format(len(text), pieces)
-/
def redact_text (text : String) : String :=
  let pieces : Nat := if text = "" then 0 else countCh '^' text.toList + 1
  "<redacted: " ++ natToString text.length ++ " chars, " ++
    natToString pieces ++ " piece(s)>"

/-- `safe_display` from `cli/07_security_explorer.py`. -/
def safe_display (value : Option String) (global_name : String)
    (include_phi : Bool) : String :=
  let text := as_text value
  if include_phi then text
  else if SENSITIVE_GLOBALS.contains global_name && text ≠ "<no value>" then
    redact_text text
  else text

/-- Display of one child inside `list_children` (`print_node_value`): a
`YDBError` while reading the value is caught and rendered inline. -/
def print_node_display (display : Option String → String) :
    Except String (Option String) → String
  | .ok v => display v
  | .error e => "<error reading value: " ++ e ++ ">"

/-- The `for sub in key.subscripts` loop of `list_children` (identical in
both explorer files, parameterised by the display function):

    count = 0
    for sub in key.subscripts:
        child = key[sub]
        print_node_value(child, ...)
        count += 1
        if count >= max_nodes:
            print(f"... truncated at {max_nodes} child node(s)")
            break

Returns the `(subscript, displayed value)` entries printed and whether the
truncation message was printed. -/
def list_children_go (display : Option String → String) (max_nodes : Int) :
    List (String × Except String (Option String)) → Int →
    List (String × String) × Bool
  | [], _ => ([], false)
  | (sub, v) :: rest, count =>
    let entry := (sub, print_node_display display v)
    if max_nodes ≤ count + 1 then ([entry], true)
    else
      let r := list_children_go display max_nodes rest (count + 1)
      (entry :: r.1, r.2)

/-- `list_children` of `cli/07_security_explorer.py` over the ordered child
sequence (no mid-iteration engine fault, the case every claim is about). -/
def list_children (children : List (String × Except String (Option String)))
    (global_name : String) (max_nodes : Int) (include_phi : Bool) :
    List (String × String) × Bool :=
  list_children_go (fun v => safe_display v global_name include_phi)
    max_nodes children 0

/-- One store-engine access performed by an explorer run. -/
inductive StoreOp where
  | getISV (name : String)
  | readValue (gname : String) (subs : List String)
  | iterChildren (gname : String) (subs : List String)
deriving DecidableEq

/-- Store interface consumed by the explorer `main`s: the `$ZYRELEASE`
intrinsic, per-path value reads, and ordered child enumeration. -/
structure ExplorerStore where
  release : Except String (Option String)
  value : String → List String → Except String (Option String)
  children : String → List String → List String

/-- Command-line arguments of `cli/07_security_explorer.py`. -/
structure Args07 where
  global_name : String
  subscripts : List String
  max_nodes : Int
  raw : Bool
  show_release : Bool
  list_allowlist : Bool
  include_phi : Bool

/-- Command-line arguments of `app/03_explore_allowlisted.py`. -/
structure Args03 where
  global_name : String
  subscripts : List String
  max_nodes : Int
  raw : Bool
  show_release : Bool
  list_allowlist : Bool

/-- Is an `Except` result an error? -/
def isErr {ε α : Type} : Except ε α → Bool
  | .error _ => true
  | .ok _ => false

/-- Value-read operations issued by the child-listing loop (one read per
child actually displayed, stopping at the bound). -/
def childReadOps (g : String) (subs : List String) (max_nodes : Int) :
    List String → Int → List StoreOp
  | [], _ => []
  | c :: rest, count =>
    StoreOp.readValue g (subs ++ [c]) ::
      (if max_nodes ≤ count + 1 then []
       else childReadOps g subs max_nodes rest (count + 1))

/-- `main` of `cli/07_security_explorer.py`, abstracted to its exit code and
the ordered trace of store accesses it performs.  The allowlist check
happens after only argument handling, before any store access. -/
def main07 (args : Args07) (store : ExplorerStore) : Int × List StoreOp :=
  if args.list_allowlist then (0, [])
  else
    let g := normalize_global_name args.global_name
    if ALLOWED_GLOBALS_07.contains g then
      let relOps : List StoreOp :=
        if args.show_release then [StoreOp.getISV "$ZYRELEASE"] else []
      if args.show_release && isErr store.release then (1, relOps)
      else
        let maxN : Int := max 1 args.max_nodes
        (0, relOps ++
          [StoreOp.readValue g args.subscripts,
           StoreOp.iterChildren g args.subscripts] ++
          childReadOps g args.subscripts maxN
            (store.children g args.subscripts) 0)
    else (2, [])

/-- `main` of `app/03_explore_allowlisted.py`, same abstraction. -/
def main03 (args : Args03) (store : ExplorerStore) : Int × List StoreOp :=
  if args.list_allowlist then (0, [])
  else
    let g := normalize_global_name args.global_name
    if ALLOWED_GLOBALS_03.contains g then
      let relOps : List StoreOp :=
        if args.show_release then [StoreOp.getISV "$ZYRELEASE"] else []
      if args.show_release && isErr store.release then (1, relOps)
      else
        let maxN : Int := max 1 args.max_nodes
        (0, relOps ++
          [StoreOp.readValue g args.subscripts,
           StoreOp.iterChildren g args.subscripts] ++
          childReadOps g args.subscripts maxN
            (store.children g args.subscripts) 0)
    else (2, [])

/-! ## `safe_get` and the patient resolver
(`cli/utils.py`, `cli/08_patient_finder.py`) -/

/-- A Python value passed as a subscript (the repository passes strings and
ints; `safe_get` casts everything with `str(...)`). -/
inductive PyVal where
  | s (v : String)
  | i (v : Int)

/-- Python `str(...)` on the subscript values used in the repository. -/
def pyStr : PyVal → String
  | .s v => v
  | .i v => intToString v

/-- A raw value held by the store engine: `yottadb.get` returns bytes, but
`safe_get` also tolerates an already-decoded string. -/
inductive YVal where
  | bytes (bs : List Nat)
  | str (v : String)

/-- Result of `yottadb.get`: a present/absent value, or an engine fault. -/
inductive GetResult where
  | ok (v : Option YVal)
  | err (e : String)

/-- Is a byte a UTF-8 continuation byte? -/
def isContByte (b : Nat) : Bool := 128 ≤ b && b < 192

/-- Strict UTF-8 decoding (Python `bytes.decode("utf-8")`): rejects
malformed sequences, overlong encodings and surrogates (`none` models
`UnicodeDecodeError`). -/
def utf8DecodeAux : List Nat → Option (List Char)
  | [] => some []
  | b :: rest =>
    if b < 128 then
      match utf8DecodeAux rest with
      | some cs => some (Char.ofNat b :: cs)
      | none => none
    else if b < 194 then none
    else if b < 224 then
      match rest with
      | c1 :: r =>
        if isContByte c1 then
          match utf8DecodeAux r with
          | some cs => some (Char.ofNat ((b - 192) * 64 + (c1 - 128)) :: cs)
          | none => none
        else none
      | [] => none
    else if b < 240 then
      match rest with
      | c1 :: c2 :: r =>
        let cp := (b - 224) * 4096 + (c1 - 128) * 64 + (c2 - 128)
        if isContByte c1 ∧ isContByte c2 ∧ 2048 ≤ cp ∧
            (cp < 55296 ∨ 57343 < cp) then
          match utf8DecodeAux r with
          | some cs => some (Char.ofNat cp :: cs)
          | none => none
        else none
      | _ => none
    else if b < 245 then
      match rest with
      | c1 :: c2 :: c3 :: r =>
        let cp := (b - 240) * 262144 + (c1 - 128) * 4096 +
          (c2 - 128) * 64 + (c3 - 128)
        if isContByte c1 ∧ isContByte c2 ∧ isContByte c3 ∧
            65536 ≤ cp ∧ cp ≤ 1114111 then
          match utf8DecodeAux r with
          | some cs => some (Char.ofNat cp :: cs)
          | none => none
        else none
      | _ => none
    else none

/-- `bytes.decode("utf-8")` producing a Lean `String`. -/
def utf8Decode (bs : List Nat) : Option String :=
  (utf8DecodeAux bs).map String.mk

/-- `safe_get` from `cli/utils.py`:

    try:
        str_subs = tuple(str(s) for s in subscripts)
        val = yottadb.get(global_name, str_subs)
        if val is None:
            return None
        return val.decode('utf-8') if isinstance(val, (bytes, bytearray)) else val
    except Exception:
        return None

`none` models both the `val is None` return and every caught exception. -/
def safe_get (store : String → List String → GetResult)
    (global_name : String) (subscripts : List PyVal) : Option String :=
  match store global_name (subscripts.map pyStr) with
  | .err _ => none
  | .ok none => none
  | .ok (some (.str v)) => some v
  | .ok (some (.bytes bs)) => utf8Decode bs

/-- The structured patient identity built by `get_patient_details`. -/
structure PatientDetails where
  ien : String
  name : String
  ssn : String
  dob : String

/-- `get_patient_details` from `cli/08_patient_finder.py` (data path):

    zero_node = safe_get("^DPT", (ien, 0))
    if not zero_node:
        return None
    data = {"ien": ien, "name": get_piece(zero_node, 1),
            "ssn": get_piece(zero_node, 9),
            "dob": fm_to_date(get_piece(zero_node, 3))}
    return data

`get_piece` cannot raise at positive piece numbers, so the `getD ""`
fallback below is never exercised. -/
def get_patient_details (store : String → List String → GetResult)
    (ien : String) : Option PatientDetails :=
  match safe_get store "^DPT" [PyVal.s ien, PyVal.i 0] with
  | none => none
  | some zero_node =>
    if zero_node = "" then none
    else some
      { ien := ien
        name := (get_piece zero_node 1).getD ""
        ssn := (get_piece zero_node 9).getD ""
        dob := fm_to_date ((get_piece zero_node 3).getD "") }

/-! ## Aggregation orchestrator (`cli/10_jlv_patient_aggregator.py`) -/

/-- Everything the aggregator's fetchers read about one patient DFN, with
each read modelled as decoded-result-or-exception-message.  (The store is
deterministic: both fetchers that read the `"0"` node observe the same
result.)  `zero` covers the whole expression
`Key("^DPT")[dfn]["0"].value.decode("utf-8")`: an engine fault, a missing
node (`NoneType` has no `decode`) and a decode failure all raise. -/
structure DPTRow where
  zero : Except String String
  icn : Except String String
  al : Except String (List String)

/-- `record.demographics` once populated. -/
structure Demographics where
  name : String
  sex : String
  dob : String
  age : Option Int
deriving DecidableEq

/-- `record.identifiers` once populated. -/
structure Identifiers where
  ssn : String
  icn : String
  dfn : String
  site : String
deriving DecidableEq

/-- One simulated medication entry. -/
structure MedEntry where
  name : String
  status : String
  source : String
deriving DecidableEq

/-- One simulated vital-sign entry (`vtype` models the `"type"` key). -/
structure VitalEntry where
  vtype : String
  value : String
  date : String
  source : String
deriving DecidableEq

/-- `PatientRecord` from `cli/10_jlv_patient_aggregator.py`.  The Python
dict fields `demographics`/`identifiers` are `none` while still `{}`. -/
structure PatientRecord where
  dfn : String
  site_code : String
  demographics : Option Demographics
  identifiers : Option Identifiers
  medications : List MedEntry
  vitals : List VitalEntry
  labs : List String
  allergies : List String
  problems : List String
  errors : List String

/-- `PatientRecord.__init__`. -/
def PatientRecord.init (dfn site_code : String) : PatientRecord :=
  { dfn := dfn, site_code := site_code, demographics := none,
    identifiers := none, medications := [], vitals := [], labs := [],
    allergies := [], problems := [], errors := [] }

/-- `_calculate_age_from_fileman` (hardcoded simulation year 2026). -/
def calculate_age_from_fileman (fileman_date : String) : Option Int :=
  if fileman_date = "" || fileman_date.length < 7 then none
  else
    match pyInt (String.mk (fileman_date.toList.take 3)) with
    | some y =>
      let age := 2026 - (1700 + y)
      if 0 ≤ age then some age else none
    | none => none

/-- `_aggregate_demographics`: populate from the pieces of the `"0"` node,
or append one `Demographics:`-tagged error. -/
def aggregate_demographics (row : DPTRow) (r : PatientRecord) :
    PatientRecord :=
  match row.zero with
  | .ok zeroth =>
    let pieces := decodePieces '^' zeroth
    { r with demographics := some (
      { name := pieces.getD 0 ""
        sex := pieces.getD 1 ""
        dob := pieces.getD 2 ""
        age := if 2 < pieces.length then
            calculate_age_from_fileman (pieces.getD 2 "") else none
        : Demographics }) }
  | .error e => { r with errors := r.errors ++ ["Demographics: " ++ e] }

/-- `_aggregate_identifiers`: SSN from piece 9; the ICN read has its own
inner recovery to `""`; or append one `Identifiers:`-tagged error. -/
def aggregate_identifiers (row : DPTRow) (site_code : String)
    (r : PatientRecord) : PatientRecord :=
  match row.zero with
  | .ok zeroth =>
    let pieces := decodePieces '^' zeroth
    { r with identifiers := some (
      { ssn := pieces.getD 8 ""
        icn := match row.icn with
          | .ok v => v
          | .error _ => ""
        dfn := r.dfn
        site := site_code
        : Identifiers }) }
  | .error e => { r with errors := r.errors ++ ["Identifiers: " ++ e] }

/-- `_aggregate_medications`: simulation placeholder, cannot fail. -/
def aggregate_medications (r : PatientRecord) : PatientRecord :=
  { r with medications :=
    [MedEntry.mk "Simulated Medication 1" "active" "simulation",
     MedEntry.mk "Simulated Medication 2" "active" "simulation"] }

/-- `_aggregate_vitals`: simulation placeholder, cannot fail. -/
def aggregate_vitals (r : PatientRecord) : PatientRecord :=
  { r with vitals :=
    [VitalEntry.mk "Blood Pressure" "120/80" "recent" "simulation",
     VitalEntry.mk "Temperature" "98.6" "recent" "simulation"] }

/-- `_aggregate_allergies`: the whole store interaction sits inside an
inner `try` whose handler substitutes a placeholder list, so this fetcher
never appends to the error list. -/
def aggregate_allergies (row : DPTRow) (r : PatientRecord) : PatientRecord :=
  match row.al with
  | .ok lst => { r with allergies := r.allergies ++ lst }
  | .error _ =>
    { r with allergies := ["(No allergies recorded or unable to read)"] }

/-- `_aggregate_problems`: simulation placeholder, cannot fail. -/
def aggregate_problems (r : PatientRecord) : PatientRecord :=
  { r with problems := ["Simulated Problem 1", "Simulated Problem 2"] }

/-- `PatientAggregator.aggregate_patient_data`: run the six domain fetchers
in order against one shared record and always return it. -/
def aggregate_patient_data (store : String → DPTRow)
    (dfn site_code : String) : PatientRecord :=
  aggregate_problems
    (aggregate_allergies (store dfn)
      (aggregate_vitals
        (aggregate_medications
          (aggregate_identifiers (store dfn) site_code
            (aggregate_demographics (store dfn)
              (PatientRecord.init dfn site_code))))))

/-! ## Forward-only scan (`show_multiple_patients` in
`cli/08_patient_finder.py`, `show_multiple_staff` in
`cli/08_staff_finder.py`) -/

/-- The store engine's next-sibling primitive (`Key.subscript_next`) over
an ordered entity set: the first listed subscript strictly greater than the
current one, `none` at `YDBNodeEnd`.  `entities` is the ordered subscript
list of one level, `lt` the store's collation. -/
def nextSib (lt : String → String → Bool) (entities : List String)
    (s : String) : Option String :=
  entities.find? (fun x => lt s x)

/-- A bare forward scan built strictly on a next-sibling primitive: no
other store operation is available to it by construction. -/
def scanAfter (next : String → Option String) : Nat → String → List String
  | 0, _ => []
  | fuel + 1, s =>
    match next s with
    | none => []
    | some t => t :: scanAfter next fuel t

/-- The `while count < limit` traversal loop of `show_multiple_patients`
(and, with other piece offsets, `show_multiple_staff`): advance with
`subscript_next`, fetch details, print and count the found ones.  Returns
the IENs printed; `fuel` only discharges termination and is irrelevant
whenever it exceeds the number of next-sibling steps available. -/
def show_multiple (next : String → Option String)
    (details : String → Option PatientDetails) (limit : Nat) :
    Nat → Nat → String → List String
  | 0, _, _ => []
  | fuel + 1, count, cur =>
    if count < limit then
      match next cur with
      | none => []
      | some t =>
        match details t with
        | some _ => t :: show_multiple next details limit fuel (count + 1) t
        | none => show_multiple next details limit fuel count t
    else []

/-- MUMPS subscript collation as documented in the specification:
canonical numeric subscripts sort numerically and precede non-numeric
subscripts, which sort by byte order (modelled from the spec; the actual
collation lives in the external store engine). -/
def isCanonicalNumSub (s : String) : Bool :=
  let l := s.toList
  (!l.isEmpty) && l.all (fun c => c.isDigit) &&
    (s = "0" || l.head? ≠ some '0')

/-- Lexicographic byte-order comparison of character lists. -/
def charListLt : List Char → List Char → Bool
  | [], [] => false
  | [], _ :: _ => true
  | _ :: _, [] => false
  | a :: as, b :: bs =>
    if a.toNat < b.toNat then true
    else if b.toNat < a.toNat then false
    else charListLt as bs

/-- The collation order itself (numeric-before-string). -/
def mumpsLt (a b : String) : Bool :=
  match isCanonicalNumSub a, isCanonicalNumSub b with
  | true, true => decide (digitsVal a.toList < digitsVal b.toList)
  | true, false => true
  | false, true => false
  | false, false => charListLt a.toList b.toList

/-! # Verification of the specification claims -/

/-! ## Shared codec lemmas -/

/-- Python `split` never returns an empty list. -/
theorem splitCh_ne_nil (c : Char) (l : List Char) : splitCh c l ≠ [] := by
  cases l with
  | nil => simp [splitCh]
  | cons x xs =>
    simp only [splitCh]
    by_cases h : x = c
    · simp [h]
    · simp only [if_neg h]
      rcases splitCh c xs with _ | ⟨hd, tl⟩ <;> simp

/-- Rejoining a split with the same separator restores the input exactly
(for every input, reserved characters or not). -/
theorem joinCh_splitCh (c : Char) (l : List Char) :
    joinCh c (splitCh c l) = l := by
  induction l with
  | nil => rfl
  | cons x xs ih =>
    by_cases h : x = c
    · subst h
      simp only [splitCh, if_pos rfl]
      rcases hr : splitCh x xs with _ | ⟨hd, tl⟩
      · exact absurd hr (splitCh_ne_nil x xs)
      · rw [hr] at ih
        simpa [joinCh] using ih
    · simp only [splitCh, if_neg h]
      rcases hr : splitCh c xs with _ | ⟨hd, tl⟩
      · exact absurd hr (splitCh_ne_nil c xs)
      · rw [hr] at ih
        cases tl with
        | nil => simp only [joinCh] at ih ⊢; rw [ih]
        | cons q t =>
          simp only [joinCh] at ih ⊢
          rw [List.cons_append, ih]

/-- Every character produced by the decimal renderer is an ASCII digit. -/
theorem natDigitsAux_isDigit (fuel : Nat) :
    ∀ (n : Nat), ∀ c ∈ natDigitsAux fuel n, c.isDigit = true := by
  have hdig : ∀ k, k < 10 → (Char.ofNat (48 + k)).isDigit = true := by
    decide
  induction fuel with
  | zero =>
    intro n c hc
    simp [natDigitsAux] at hc
  | succ fuel ih =>
    intro n c hc
    simp only [natDigitsAux] at hc
    by_cases h : n < 10
    · rw [if_pos h] at hc
      simp only [List.mem_singleton] at hc
      subst hc
      exact hdig n h
    · rw [if_neg h] at hc
      rcases List.mem_append.mp hc with h1 | h2
      · exact ih (n / 10) c h1
      · simp only [List.mem_singleton] at h2
        subst h2
        exact hdig (n % 10) (Nat.mod_lt _ (by norm_num))

/-- The decimal renderer never produces the empty list (for positive
fuel). -/
theorem natDigitsAux_ne_nil (fuel n : Nat) (h : 1 ≤ fuel) :
    natDigitsAux fuel n ≠ [] := by
  cases fuel with
  | zero => omega
  | succ f =>
    simp only [natDigitsAux]
    by_cases h10 : n < 10
    · rw [if_pos h10]
      simp
    · rw [if_neg h10]
      intro hemp
      have := List.append_eq_nil.mp hemp
      simp at this

/-- The first character of a rendered integer is a digit or a minus
sign. -/
theorem intToString_head_ok (i : Int) :
    ∃ c rest, (intToString i).toList = c :: rest ∧
      (c.isDigit = true ∨ c = '-') := by
  unfold intToString natToString
  by_cases h : i < 0
  · rw [if_pos h]
    exact ⟨'-', natDigitsAux ((-i).toNat + 1) (-i).toNat, rfl, Or.inr rfl⟩
  · rw [if_neg h]
    rcases hne : natDigitsAux (i.toNat + 1) i.toNat with _ | ⟨c, rest⟩
    · exact absurd hne (natDigitsAux_ne_nil _ _ (by omega))
    · refine ⟨c, rest, rfl, Or.inl ?_⟩
      exact natDigitsAux_isDigit _ _ c (hne ▸ List.mem_cons_self c rest)

/-- The first character of a rendered non-negative integer is a digit. -/
theorem intToString_head_digit_of_nonneg (i : Int) (h : 0 ≤ i) :
    ∃ c rest, (intToString i).toList = c :: rest ∧ c.isDigit = true := by
  unfold intToString natToString
  rw [if_neg (by omega : ¬ i < 0)]
  rcases hne : natDigitsAux (i.toNat + 1) i.toNat with _ | ⟨c, rest⟩
  · exact absurd hne (natDigitsAux_ne_nil _ _ (by omega))
  · exact ⟨c, rest, rfl,
      natDigitsAux_isDigit _ _ c (hne ▸ List.mem_cons_self c rest)⟩

/-- The first character of a zero-padded two-digit field is a digit. -/
theorem pad2_head_digit (i : Int) (h : 0 ≤ i) :
    ∃ c rest, (pad2 i).toList = c :: rest ∧ c.isDigit = true := by
  unfold pad2
  by_cases h10 : i < 10
  · rw [if_pos h10]
    exact ⟨'0', (intToString i).toList, rfl, by decide⟩
  · rw [if_neg h10]
    exact intToString_head_digit_of_nonneg i h

/-!
## C1 — `get_piece` out-of-range behaviour

The claim is FALSE as stated: for `n = 0` with a non-empty raw value the
guard `len(pieces) >= piece_num` passes and Python's negative indexing
makes `pieces[-1]` return the LAST piece, not `""`; and for negative `n`
far enough below zero the subscript raises `IndexError`.
-/

/-- C1, counterexample: `get_piece("a^b", 0)` returns the last piece `"b"`
rather than the claimed `""`, and `get_piece("a", -1)` raises `IndexError`
(modelled `none`) rather than returning `""`. -/
theorem get_piece_out_of_range_counterexample :
    get_piece "a^b" 0 = some "b" ∧ get_piece "a" (-1) = none := by
  constructor <;> decide

/-- C1, amended: for every raw value and every piece number `n ≥ 1`,
`get_piece` never raises and returns the `n`-th 1-indexed piece of the
split, with `""` when raw is empty or `n` exceeds the piece count.  (For
`n ≤ 0` Python negative indexing applies instead: a piece counted from the
end when in range, an uncaught `IndexError` otherwise.) -/
theorem get_piece_positive_contract (data : String) (n : Int) (h : 1 ≤ n) :
    get_piece data n =
      some (String.mk ((splitCh '^' data.toList).getD (n - 1).toNat [])) := by
  by_cases hd : data = ""
  · subst hd
    show some "" = _
    rcases (n - 1).toNat with _ | k <;> rfl
  · unfold get_piece
    rw [if_neg hd]
    by_cases hle : n ≤ ((splitCh '^' data.toList).length : Int)
    · rw [if_pos hle]
      have h0 : (0 : Int) ≤ n - 1 := by omega
      have hlt : (n - 1).toNat < (splitCh '^' data.toList).length := by omega
      unfold pyGetItem
      rw [if_pos h0, List.get?_eq_getElem?, List.getElem?_eq_getElem hlt,
        List.getD_eq_getElem _ _ hlt]
      rfl
    · rw [if_neg hle]
      have hge : (splitCh '^' data.toList).length ≤ (n - 1).toNat := by omega
      rw [List.getD_eq_default _ _ hge]

/-- C1 witness: the amended contract applied at `("a^b^c", 2)`. -/
theorem get_piece_positive_contract_witness :
    (1 : Int) ≤ 2 ∧
      get_piece "a^b^c" 2 =
        some (String.mk
          ((splitCh '^' ("a^b^c" : String).toList).getD ((2 : Int) - 1).toNat [])) :=
  ⟨by decide, get_piece_positive_contract "a^b^c" 2 (by decide)⟩

/-!
## C9 — decode-then-join round-trip

Confirmed (it in fact holds for every string, with or without reserved
characters; the claim's restricted form follows). -/

/-- C9: for every string without embedded codec-reserved characters (the
delimiter `^`), joining `decodePieces(s, "^")` back with `"^"` yields `s`
exactly. -/
theorem decodePieces_joinPieces_roundtrip (s : String)
    (_h : '^' ∉ s.toList) :
    joinPieces '^' (decodePieces '^' s) = s := by
  show String.mk (joinCh '^' (((splitCh '^' s.toList).map String.mk).map String.toList)) = s
  have hmaps : ((splitCh '^' s.toList).map String.mk).map String.toList
      = splitCh '^' s.toList := by
    rw [List.map_map]
    exact List.map_id'' (fun _ => rfl) _
  rw [hmaps, joinCh_splitCh]
  rfl

/-- C9 witness: the round-trip applied at a delimiter-free composite
value. -/
theorem decodePieces_joinPieces_roundtrip_witness :
    '^' ∉ ("DOE,JOHN" : String).toList ∧
      joinPieces '^' (decodePieces '^' "DOE,JOHN") = "DOE,JOHN" :=
  ⟨by decide, decodePieces_joinPieces_roundtrip "DOE,JOHN" (by decide)⟩

/-!
## C5 — FileMan date decoding

The decoding arithmetic and the example are as claimed, but the claim's
error path is wrong twice over: `fm_to_date("")` returns the `"N/A"`
placeholder (first guard), not the FormatError sentinel carrying the
original raw text; and "short or non-numeric input fails" is not the real
trigger either — a 6-character input parses with a one-digit day and
trailing garbage beyond slice `[5:7]` is ignored.  The marker appears
exactly when one of the three sliced fields fails `int()` or the
resulting date is invalid. -/

/-- C5, counterexample: empty input yields `"N/A"`, which is not the
invalid-date marker carrying the original raw text. -/
theorem fm_to_date_empty_counterexample :
    fm_to_date "" = "N/A" ∧ "N/A" ≠ "Invalid Date (" ++ "" ++ ")" := by
  constructor <;> decide

/-- A rendered date (`"%m/%d/%Y"` with a month field ≥ 0) is never the
invalid-date marker — their first characters differ. -/
theorem fm_render_ne_marker (mo dy y : Int) (hmo : 0 ≤ mo) (raw : String) :
    pad2 mo ++ "/" ++ pad2 dy ++ "/" ++ intToString y ≠
      "Invalid Date (" ++ raw ++ ")" := by
  intro heq
  obtain ⟨c, rest, hc, hd⟩ := pad2_head_digit mo hmo
  have htl : (pad2 mo ++ "/" ++ pad2 dy ++ "/" ++ intToString y).toList =
      (pad2 mo).toList ++
        ("/" ++ pad2 dy ++ "/" ++ intToString y).toList := by
    simp [String.toList, String.data_append, List.append_assoc]
  rw [heq, hc, List.cons_append] at htl
  have h0 : ("Invalid Date (" ++ raw ++ ")").toList =
      'I' :: (("nvalid Date (" : String).toList ++ raw.toList ++
        (")" : String).toList) := by
    have h1 : ("Invalid Date (" : String).data =
        'I' :: ("nvalid Date (" : String).data := rfl
    simp [String.toList, String.data_append, h1, List.append_assoc]
  rw [h0] at htl
  have hic : 'I' = c := (List.cons.injEq _ _ _ _ ▸ htl).1
  rw [← hic] at hd
  exact absurd hd (by decide)

/-- C5, amended: `decodeFilemanDate` splits on `.`, takes the integer
part, adds 1700 to `int(date_part[:3])` for the year and reads the slices
`[3:5]` and `[5:7]` as month and day — `fm_to_date "2660512" =
"05/12/1966"` (calendar date 1966-05-12).  It returns the invalid-date
marker carrying the original raw text exactly when one of those three
sliced fields fails integer parsing or the resulting year/month/day is
not a valid calendar date (an iff) — NOT for every short or non-numeric
input: `"266051"` still parses, with a one-digit day, and
`"2660512XYZ"`'s trailing garbage lies beyond slice `[5:7]` and is
ignored.  Empty or whitespace-only input yields `"N/A"` instead of the
marker. -/
theorem fm_to_date_contract :
    fm_to_date "2660512" = "05/12/1966" ∧
    fm_to_date "266051" = "05/01/1966" ∧
    fm_to_date "2660512XYZ" = "05/12/1966" ∧
    (∀ (raw : String) (y3 mo dy : Int),
      raw ≠ "" → pyStrip raw.toList ≠ [] →
      fmY3 raw = some y3 → fmMonth raw = some mo → fmDay raw = some dy →
      isValidDate (y3 + 1700) mo dy = true →
      fm_to_date raw =
        pad2 mo ++ "/" ++ pad2 dy ++ "/" ++ intToString (y3 + 1700)) ∧
    (∀ raw : String, raw ≠ "" → pyStrip raw.toList ≠ [] →
      (fm_to_date raw = "Invalid Date (" ++ raw ++ ")" ↔
        ¬ ∃ y3 mo dy : Int, fmY3 raw = some y3 ∧ fmMonth raw = some mo ∧
          fmDay raw = some dy ∧ isValidDate (y3 + 1700) mo dy = true)) := by
  have hguard : ∀ raw : String, raw ≠ "" → pyStrip raw.toList ≠ [] →
      ¬((decide (raw = "") || decide (pyStrip raw.toList = [])) = true) := by
    intro raw h1 h2
    simp only [Bool.or_eq_true, decide_eq_true_eq]
    push_neg
    exact ⟨h1, h2⟩
  have hsucc : ∀ (raw : String) (y3 mo dy : Int),
      raw ≠ "" → pyStrip raw.toList ≠ [] →
      fmY3 raw = some y3 → fmMonth raw = some mo → fmDay raw = some dy →
      isValidDate (y3 + 1700) mo dy = true →
      fm_to_date raw =
        pad2 mo ++ "/" ++ pad2 dy ++ "/" ++ intToString (y3 + 1700) := by
    intro raw y3 mo dy h1 h2 hy hm hd hv
    unfold fm_to_date
    rw [if_neg (hguard raw h1 h2), hy, hm, hd]
    show (if isValidDate (y3 + 1700) mo dy = true
        then pad2 mo ++ "/" ++ pad2 dy ++ "/" ++ intToString (y3 + 1700)
        else "Invalid Date (" ++ raw ++ ")") =
      pad2 mo ++ "/" ++ pad2 dy ++ "/" ++ intToString (y3 + 1700)
    rw [if_pos hv]
  refine ⟨by decide, by decide, by decide, hsucc, ?_⟩
  intro raw h1 h2
  constructor
  · intro hmark
    rintro ⟨y3, mo, dy, hy, hm, hd, hv⟩
    rw [hsucc raw y3 mo dy h1 h2 hy hm hd hv] at hmark
    have hmo : (0 : Int) ≤ mo := by
      simp only [isValidDate, Bool.and_eq_true, decide_eq_true_eq] at hv
      omega
    exact fm_render_ne_marker mo dy (y3 + 1700) hmo raw hmark
  · intro hne
    unfold fm_to_date
    rw [if_neg (hguard raw h1 h2)]
    rcases hy : fmY3 raw with _ | y3
    · rfl
    · rcases hm : fmMonth raw with _ | mo
      · rfl
      · rcases hd : fmDay raw with _ | dy
        · rfl
        · by_cases hv : isValidDate (y3 + 1700) mo dy = true
          · exact absurd ⟨y3, mo, dy, hy, hm, hd, hv⟩ hne
          · show (if isValidDate (y3 + 1700) mo dy = true
                then pad2 mo ++ "/" ++ pad2 dy ++ "/" ++ intToString (y3 + 1700)
                else "Invalid Date (" ++ raw ++ ")") =
              "Invalid Date (" ++ raw ++ ")"
            rw [if_neg hv]

/-- C5 witness: the amended contract applied concretely — the success
path at `"2660512"` (all three fields parse, date valid) and the marker
path at `"26"` (the `[3:5]` month slice is empty, so `int("")` fails). -/
theorem fm_to_date_contract_witness :
    fm_to_date "2660512" =
      pad2 5 ++ "/" ++ pad2 12 ++ "/" ++ intToString (266 + 1700) ∧
    fm_to_date "26" = "Invalid Date (" ++ "26" ++ ")" := by
  constructor
  · exact fm_to_date_contract.2.2.2.1 "2660512" 266 5 12 (by decide)
      (by decide) (by decide) (by decide) (by decide) (by decide)
  · refine (fm_to_date_contract.2.2.2.2 "26" (by decide) (by decide)).mpr ?_
    rintro ⟨y3, mo, dy, _, hm, _, _⟩
    have hnone : fmMonth "26" = none := by decide
    rw [hnone] at hm
    exact Option.noConfusion hm

/-!
## C2 — allowlist policy check precedes every store access

Confirmed: in both explorer `main`s, when the normalized root is not
allowlisted (and the run is an actual lookup, not the `--list-allowlist`
info branch, which performs no read at all), the exit code is the policy
failure 2 and the store trace is empty. -/

/-- C2: every read operation against a non-allowlisted normalized root
fails with the PolicyError exit (2) and performs zero store calls, in both
`cli/07_security_explorer.py` and `app/03_explore_allowlisted.py` — no
content and no existence information can flow from the store. -/
theorem allowlist_policy_blocks_before_store
    (a7 : Args07) (a3 : Args03) (store : ExplorerStore)
    (h7l : a7.list_allowlist = false)
    (h7 : ALLOWED_GLOBALS_07.contains (normalize_global_name a7.global_name)
      = false)
    (h3l : a3.list_allowlist = false)
    (h3 : ALLOWED_GLOBALS_03.contains (normalize_global_name a3.global_name)
      = false) :
    main07 a7 store = (2, []) ∧ main03 a3 store = (2, []) := by
  have h7m : normalize_global_name a7.global_name ∉ ALLOWED_GLOBALS_07 := by
    simpa using h7
  have h3m : normalize_global_name a3.global_name ∉ ALLOWED_GLOBALS_03 := by
    simpa using h3
  constructor
  · simp [main07, h7l, h7m]
  · simp [main03, h3l, h3m]

/-- C2 witness: a concrete blocked lookup (root `ZZ`, normalized `^ZZ`)
against a concrete store. -/
theorem allowlist_policy_blocks_before_store_witness :
    main07 (Args07.mk "ZZ" [] 20 false false false false)
        (ExplorerStore.mk (Except.ok none) (fun _ _ => Except.ok none)
          (fun _ _ => [])) = (2, []) ∧
      main03 (Args03.mk "ZZ" [] 20 false false false)
        (ExplorerStore.mk (Except.ok none) (fun _ _ => Except.ok none)
          (fun _ _ => [])) = (2, []) :=
  allowlist_policy_blocks_before_store _ _ _ rfl (by decide) rfl (by decide)

/-!
## C3 — bounded child listing

The first half of the claim holds (more than `k` children: exactly `k`
entries, truncation flagged).  The second half is FALSE at `k =` child
count: the loop flags truncation as soon as `count` reaches `max_nodes`,
without checking whether anything remained, so an entity with exactly `k`
children is fully listed yet reported truncated. -/

/-- The child-listing loop, solved in closed form: for a positive bound it
returns the display entries of the first `k - count` children and flags
truncation iff the bound was reached. -/
theorem list_children_go_spec (display : Option String → String) (k : Int) :
    ∀ (children : List (String × Except String (Option String)))
      (count : Int), count < k →
      list_children_go display k children count =
        ((children.take (k - count).toNat).map
          (fun cv => (cv.1, print_node_display display cv.2)),
         decide (k - count ≤ (children.length : Int))) := by
  intro children
  induction children with
  | nil =>
    intro count h
    have hd : decide (k - count ≤ ((0 : Nat) : Int)) = false := by
      rw [decide_eq_false_iff_not]
      omega
    simp only [list_children_go, List.take_nil, List.map_nil,
      List.length_nil, hd]
  | cons c rest ih =>
    intro count h
    simp only [list_children_go]
    by_cases hk : k ≤ count + 1
    · rw [if_pos hk]
      have h1 : (k - count).toNat = 1 := by omega
      have hd : decide (k - count ≤ ((c :: rest).length : Int)) = true := by
        rw [decide_eq_true_eq]
        have : ((c :: rest).length : Int) = (rest.length : Int) + 1 := by
          push_cast [List.length_cons]
          ring
        omega
      rw [h1, hd]
      rfl
    · rw [if_neg hk]
      rw [ih (count + 1) (by omega)]
      have h3 : (k - count).toNat = (k - (count + 1)).toNat + 1 := by omega
      have h4 : decide (k - (count + 1) ≤ (rest.length : Int)) =
          decide (k - count ≤ ((c :: rest).length : Int)) := by
        rw [decide_eq_decide]
        have : ((c :: rest).length : Int) = (rest.length : Int) + 1 := by
          push_cast [List.length_cons]
          ring
        omega
      rw [h3, h4]
      rfl

/-- C3, counterexample: an entity with exactly 1 child listed with
`maxNodes = 1` (so `k ≥` actual child count) returns all children but
reports `truncated = true`, not the claimed `false`. -/
theorem list_children_exact_bound_counterexample :
    list_children [("1", Except.ok (some "v"))] "^DIC" 1 false
      = ([("1", "v")], true) := by
  decide

/-- C3, amended: for every bound `k ≥ 1` the listing returns the display
entries of the first `min(k, count)` children and reports
`truncated = true` exactly when `k ≤` the child count.  Hence: strictly
more than `k` children gives exactly `k` entries with `truncated = true`;
`k >` child count gives all children with `truncated = false`; and at
`k =` child count all children are returned but `truncated` is (spuriously)
`true`. -/
theorem list_children_bound_contract
    (children : List (String × Except String (Option String)))
    (gname : String) (phi : Bool) (k : Int) (h : 1 ≤ k) :
    list_children children gname k phi =
      ((children.take k.toNat).map
        (fun cv =>
          (cv.1, print_node_display (fun v => safe_display v gname phi) cv.2)),
       decide (k ≤ (children.length : Int))) := by
  unfold list_children
  have hs := list_children_go_spec
    (fun v => safe_display v gname phi) k children 0 (by omega)
  simpa using hs

/-- C3 witness: the amended contract applied to a 3-child entity with
bound 2 (2 entries, truncated). -/
theorem list_children_bound_contract_witness :
    list_children
        [("1", Except.ok (some "a")), ("2", Except.ok (some "b")),
         ("3", Except.ok (some "c"))] "^DIC" 2 false =
      (([("1", Except.ok (some "a")), ("2", Except.ok (some "b")),
         ("3", (Except.ok (some "c") : Except String (Option String)))].take
          (2 : Int).toNat).map
        (fun cv =>
          (cv.1, print_node_display (fun v => safe_display v "^DIC" false)
            cv.2)),
       decide ((2 : Int) ≤
        (([("1", Except.ok (some "a")), ("2", Except.ok (some "b")),
           ("3", (Except.ok (some "c") : Except String (Option String)))] :
          List _).length : Int))) :=
  list_children_bound_contract _ _ _ _ (by decide)

/-!
## C4 — redaction of sensitive roots

The redaction routing and count preservation hold, but the claim is FALSE
in two corners of `redact_text`/`safe_display`: an empty decoded value is
summarised as `0 piece(s)` (the claimed delimiter-count + 1 would be 1),
and a decoded value that happens to equal the literal `"<no value>"` is
displayed verbatim (real content, not a structural summary). -/

/-- C4, counterexample: under sensitive root `^DPT` without the PHI
opt-in, the empty value is summarised with piece count 0, not the claimed
delimiter-count + 1 = 1; and the value `"<no value>"` is echoed verbatim
rather than replaced by a structural summary. -/
theorem safe_display_redaction_counterexample :
    safe_display (some "") "^DPT" false = "<redacted: 0 chars, 0 piece(s)>" ∧
    "<redacted: 0 chars, 0 piece(s)>" ≠
      "<redacted: " ++ natToString ("" : String).length ++ " chars, " ++
        natToString (countCh '^' ("" : String).toList + 1) ++ " piece(s)>" ∧
    safe_display (some "<no value>") "^DPT" false = "<no value>" := by
  refine ⟨by decide, by decide, by decide⟩

/-- C4, amended: for every non-empty decoded value other than the literal
`"<no value>"` read under a root in the sensitive set without the PHI
opt-in, the display is exactly the structural summary built from the
value's own character count and its delimiter count + 1 — the real content
never appears and the reported counts are those of the hidden value.  (The
empty value is summarised with piece count 0; a value equal to
`"<no value>"` is displayed verbatim.) -/
theorem safe_display_redaction_contract (s gname : String)
    (hg : SENSITIVE_GLOBALS.contains gname = true)
    (hs : s ≠ "<no value>") (hne : s ≠ "") :
    safe_display (some s) gname false =
      "<redacted: " ++ natToString s.length ++ " chars, " ++
        natToString (countCh '^' s.toList + 1) ++ " piece(s)>" := by
  have hmem : gname ∈ SENSITIVE_GLOBALS := by simpa using hg
  simp [safe_display, as_text, redact_text, hmem, hs, hne]

/-- C4 witness: the amended contract applied to a concrete patient zero
node under `^DPT`. -/
theorem safe_display_redaction_contract_witness :
    safe_display (some "DOE,JOHN^M^2660512") "^DPT" false =
      "<redacted: " ++ natToString ("DOE,JOHN^M^2660512" : String).length ++
        " chars, " ++
        natToString (countCh '^' ("DOE,JOHN^M^2660512" : String).toList + 1) ++
        " piece(s)>" :=
  safe_display_redaction_contract _ _ (by decide) (by decide) (by decide)

/-!
## C6 — aggregation bulkhead isolation

Confirmed.  In this code base the only fallible fetchers are demographics
and identifiers (medications, vitals and problems assign constants, and
the allergies fetcher recovers internally to a placeholder, never touching
the error list); both fallible fetchers read the same `"0"` node, so a
store fault there is exactly the claimed 2-of-6 failure: the four other
domains are still populated and exactly two domain-tagged errors are
recorded.  The call always returns a record by construction. -/

/-- C6: aggregation always returns a record; each fetcher populates its
own field or appends exactly one domain-tagged error; a `"0"`-node fault
(the 2-of-6 failure scenario) leaves the other four domains populated with
exactly the two tagged messages in order, and a fault-free `"0"` read
populates demographics and identifiers with no errors at all. -/
theorem aggregate_patient_data_bulkhead (store : String → DPTRow)
    (dfn site : String) :
    (aggregate_patient_data store dfn site).medications.length = 2 ∧
    (aggregate_patient_data store dfn site).vitals.length = 2 ∧
    (aggregate_patient_data store dfn site).problems.length = 2 ∧
    (∀ e, (store dfn).zero = Except.error e →
      (aggregate_patient_data store dfn site).errors =
        ["Demographics: " ++ e, "Identifiers: " ++ e] ∧
      (aggregate_patient_data store dfn site).demographics = none ∧
      (aggregate_patient_data store dfn site).identifiers = none) ∧
    (∀ z, (store dfn).zero = Except.ok z →
      (aggregate_patient_data store dfn site).errors = [] ∧
      (aggregate_patient_data store dfn site).demographics.isSome = true ∧
      (aggregate_patient_data store dfn site).identifiers.isSome = true) ∧
    (∀ e, (store dfn).al = Except.error e →
      (aggregate_patient_data store dfn site).allergies =
        ["(No allergies recorded or unable to read)"]) := by
  unfold aggregate_patient_data
  rcases hrow : store dfn with ⟨z, icn, al⟩
  rcases z with e | z <;> rcases al with e2 | lst
  · refine ⟨rfl, rfl, rfl, ?_, ?_, ?_⟩
    · intro e' he'
      obtain rfl : e = e' := by injection he'
      exact ⟨rfl, rfl, rfl⟩
    · intro z hzz
      exact Except.noConfusion hzz
    · intro e' _
      rfl
  · refine ⟨rfl, rfl, rfl, ?_, ?_, ?_⟩
    · intro e' he'
      obtain rfl : e = e' := by injection he'
      exact ⟨rfl, rfl, rfl⟩
    · intro z hzz
      exact Except.noConfusion hzz
    · intro e' he'
      exact Except.noConfusion he'
  · refine ⟨rfl, rfl, rfl, ?_, ?_, ?_⟩
    · intro e' he'
      exact Except.noConfusion he'
    · intro z' _
      exact ⟨rfl, rfl, rfl⟩
    · intro e' _
      rfl
  · refine ⟨rfl, rfl, rfl, ?_, ?_, ?_⟩
    · intro e' he'
      exact Except.noConfusion he'
    · intro z' _
      exact ⟨rfl, rfl, rfl⟩
    · intro e' he'
      exact Except.noConfusion he'

/-- C6 witness: a store whose `"0"` read faults (`boom`): exactly the two
tagged errors, and the four sheltered domains still populated. -/
theorem aggregate_patient_data_bulkhead_witness :
    (aggregate_patient_data
      (fun _ => DPTRow.mk (Except.error "boom") (Except.error "boom")
        (Except.ok [])) "1" "500").errors =
      ["Demographics: " ++ "boom", "Identifiers: " ++ "boom"] ∧
    (aggregate_patient_data
      (fun _ => DPTRow.mk (Except.error "boom") (Except.error "boom")
        (Except.ok [])) "1" "500").medications.length = 2 ∧
    (aggregate_patient_data
      (fun _ => DPTRow.mk (Except.error "boom") (Except.error "boom")
        (Except.ok [])) "1" "500").vitals.length = 2 ∧
    (aggregate_patient_data
      (fun _ => DPTRow.mk (Except.error "boom") (Except.error "boom")
        (Except.ok [])) "1" "500").problems.length = 2 :=
  ⟨((aggregate_patient_data_bulkhead _ "1" "500").2.2.2.1 "boom" rfl).1,
   (aggregate_patient_data_bulkhead _ "1" "500").1,
   (aggregate_patient_data_bulkhead _ "1" "500").2.1,
   (aggregate_patient_data_bulkhead _ "1" "500").2.2.1⟩

/-!
## C10 — `safe_get` totality and fault/absence indistinguishability

Confirmed: `safe_get` returns a decoded string or `None` and converts
every engine fault, missing node and decode failure to `None`; through the
resolver `get_patient_details`, a store fault on the primary record is
indistinguishable from the record being absent. -/

/-- C10: `safe_get` is total — every branch of the underlying read
(engine fault, absent value, undecodable bytes, decodable bytes, plain
string) yields `none` or the decoded string, never an uncaught exception;
and at the resolver's public interface a `"0"`-node fault and an absent
`"0"` node both surface as the same not-found outcome. -/
theorem safe_get_total_and_not_found_indistinguishable :
    (∀ (store : String → List String → GetResult) (g : String)
      (subs : List PyVal) (e : String),
      store g (subs.map pyStr) = GetResult.err e →
      safe_get store g subs = none) ∧
    (∀ (store : String → List String → GetResult) (g : String)
      (subs : List PyVal),
      store g (subs.map pyStr) = GetResult.ok none →
      safe_get store g subs = none) ∧
    (∀ (store : String → List String → GetResult) (g : String)
      (subs : List PyVal) (bs : List Nat),
      store g (subs.map pyStr) = GetResult.ok (some (YVal.bytes bs)) →
      utf8Decode bs = none → safe_get store g subs = none) ∧
    (∀ (store : String → List String → GetResult) (g : String)
      (subs : List PyVal) (bs : List Nat) (s : String),
      store g (subs.map pyStr) = GetResult.ok (some (YVal.bytes bs)) →
      utf8Decode bs = some s → safe_get store g subs = some s) ∧
    (∀ (store : String → List String → GetResult) (g : String)
      (subs : List PyVal) (v : String),
      store g (subs.map pyStr) = GetResult.ok (some (YVal.str v)) →
      safe_get store g subs = some v) ∧
    (∀ (s1 s2 : String → List String → GetResult) (ien e : String),
      s1 "^DPT" [ien, "0"] = GetResult.err e →
      s2 "^DPT" [ien, "0"] = GetResult.ok none →
      get_patient_details s1 ien = none ∧
        get_patient_details s2 ien = none) := by
  have hmap : ∀ ien : String,
      List.map pyStr [PyVal.s ien, PyVal.i 0] = [ien, "0"] := by
    intro ien
    rfl
  refine ⟨?_, ?_, ?_, ?_, ?_, ?_⟩
  · intro store g subs e h
    unfold safe_get
    rw [h]
  · intro store g subs h
    unfold safe_get
    rw [h]
  · intro store g subs bs h hdec
    unfold safe_get
    rw [h]
    exact hdec
  · intro store g subs bs s h hdec
    unfold safe_get
    rw [h]
    exact hdec
  · intro store g subs v h
    unfold safe_get
    rw [h]
  · intro s1 s2 ien e h1 h2
    constructor
    · unfold get_patient_details safe_get
      rw [hmap ien, h1]
    · unfold get_patient_details safe_get
      rw [hmap ien, h2]

/-- C10 witness: a concrete faulting store and a concrete empty store both
surface as `none`, at `safe_get` and through the patient resolver. -/
theorem safe_get_total_witness :
    safe_get (fun _ _ => GetResult.err "boom") "^DPT"
      [PyVal.s "1", PyVal.i 0] = none ∧
    get_patient_details (fun _ _ => GetResult.err "boom") "1" = none ∧
    get_patient_details (fun _ _ => GetResult.ok none) "1" = none :=
  ⟨safe_get_total_and_not_found_indistinguishable.1 _ _ _ "boom" rfl,
   (safe_get_total_and_not_found_indistinguishable.2.2.2.2.2
      (fun _ _ => GetResult.err "boom") (fun _ _ => GetResult.ok none)
      "1" "boom" rfl rfl).1,
   (safe_get_total_and_not_found_indistinguishable.2.2.2.2.2
      (fun _ _ => GetResult.err "boom") (fun _ _ => GetResult.ok none)
      "1" "boom" rfl rfl).2⟩

/-!
## C7 — forward-only scan over the next-sibling primitive

Confirmed.  `scanAfter`/`show_multiple` consume only a next-sibling
function (by construction no whole-set operation is available to them),
and over an entity set sorted by the store collation they enumerate
exactly the subscripts strictly greater than the start, in order, then
end. -/

/-- Scans driven by two next-sibling functions that agree on a set closed
under the second one coincide. -/
theorem scanAfter_congr (n1 n2 : String → Option String) (T : List String)
    (hagree : ∀ x ∈ T, n1 x = n2 x)
    (hclosed : ∀ x ∈ T, ∀ y, n2 x = some y → y ∈ T) :
    ∀ (fuel : Nat) (s : String), s ∈ T →
      scanAfter n1 fuel s = scanAfter n2 fuel s := by
  intro fuel
  induction fuel with
  | zero => intro s _; rfl
  | succ fuel ih =>
    intro s hs
    simp only [scanAfter]
    rw [hagree s hs]
    rcases hn : n2 s with _ | t
    · rfl
    · show t :: scanAfter n1 fuel t = t :: scanAfter n2 fuel t
      rw [ih t (hclosed s hs t hn)]

/-- Over an entity set whose members are all strictly greater than the
start (in sorted order), the scan yields the whole set. -/
theorem scanAfter_nextSib_all (lt : String → String → Bool) :
    ∀ (M : List String) (s : String) (fuel : Nat),
      List.Pairwise (fun a b => lt a b = true) (s :: M) →
      (∀ a ∈ M, ∀ b ∈ M, lt a b = true → lt b a = false) →
      M.length ≤ fuel →
      scanAfter (nextSib lt M) fuel s = M := by
  intro M
  induction M with
  | nil =>
    intro s fuel _ _ _
    cases fuel with
    | zero => rfl
    | succ f => rfl
  | cons a rest ih =>
    intro s fuel hpair hasymm hfuel
    rw [List.pairwise_cons] at hpair
    cases fuel with
    | zero => simp at hfuel
    | succ f =>
      have hsa : lt s a = true := hpair.1 a (List.mem_cons_self a rest)
      simp only [scanAfter]
      have hfind : nextSib lt (a :: rest) s = some a := by
        unfold nextSib
        simp [List.find?, hsa]
      rw [hfind]
      show a :: scanAfter (nextSib lt (a :: rest)) f a = a :: rest
      congr 1
      have hpair' := hpair.2
      rw [List.pairwise_cons] at hpair'
      have hagree : ∀ x ∈ a :: rest,
          nextSib lt (a :: rest) x = nextSib lt rest x := by
        intro x hx
        have hxa : lt x a = false := by
          rcases List.mem_cons.mp hx with rfl | hxr
          · by_cases h : lt x x = true
            · exact hasymm x hx x hx h
            · exact eq_false_of_ne_true h
          · exact hasymm a (List.mem_cons_self a rest) x
              (List.mem_cons_of_mem a hxr) (hpair'.1 x hxr)
        unfold nextSib
        simp [List.find?, hxa]
      have hclosed : ∀ x ∈ a :: rest, ∀ y,
          nextSib lt rest x = some y → y ∈ a :: rest := by
        intro x _ y hy
        exact List.mem_cons_of_mem a (List.mem_of_find?_eq_some hy)
      rw [scanAfter_congr _ _ (a :: rest) hagree hclosed f a
        (List.mem_cons_self a rest)]
      apply ih a f
      · rw [List.pairwise_cons]
        exact ⟨hpair'.1, hpair'.2⟩
      · intro x hx y hy
        exact hasymm x (List.mem_cons_of_mem a hx) y
          (List.mem_cons_of_mem a hy)
      · simpa using Nat.le_of_succ_le_succ (by simpa using hfuel)

/-- The forward scan over a collation-sorted entity set started after `s`
yields exactly the entities strictly greater than `s`, in ascending order,
followed by end-of-sequence.  Asymmetry and transitivity of the order need
only hold on the listed entities (plus the start), so they are decidable
side conditions at any concrete instance. -/
theorem scanAfter_nextSib_filter (lt : String → String → Bool) :
    ∀ (M : List String) (s : String) (fuel : Nat),
      List.Pairwise (fun a b => lt a b = true) M →
      (∀ a ∈ M, ∀ b ∈ M, lt a b = true → lt b a = false) →
      (∀ b ∈ M, ∀ c ∈ M, lt s b = true → lt b c = true → lt s c = true) →
      (M.filter (fun x => lt s x)).length ≤ fuel →
      scanAfter (nextSib lt M) fuel s = M.filter (fun x => lt s x) := by
  intro M
  induction M with
  | nil =>
    intro s fuel _ _ _ _
    cases fuel with
    | zero => rfl
    | succ f => rfl
  | cons a rest ih =>
    intro s fuel hpair hasymm htrans hfuel
    rw [List.pairwise_cons] at hpair
    by_cases hsa : lt s a = true
    · have hall : ∀ b ∈ rest, lt s b = true := fun b hb =>
        htrans a (List.mem_cons_self a rest) b (List.mem_cons_of_mem a hb)
          hsa (hpair.1 b hb)
      have hfilter : (a :: rest).filter (fun x => lt s x) = a :: rest := by
        rw [List.filter_cons_of_pos hsa]
        congr 1
        rw [List.filter_eq_self]
        exact fun b hb => hall b hb
      rw [hfilter] at hfuel ⊢
      apply scanAfter_nextSib_all lt (a :: rest) s fuel
      · rw [List.pairwise_cons]
        refine ⟨?_, ?_⟩
        · intro b hb
          rcases List.mem_cons.mp hb with rfl | hbr
          · exact hsa
          · exact hall b hbr
        · rw [List.pairwise_cons]
          exact ⟨hpair.1, hpair.2⟩
      · exact hasymm
      · exact hfuel
    · have hsa' : lt s a = false := eq_false_of_ne_true hsa
      have hfilter : (a :: rest).filter (fun x => lt s x) =
          rest.filter (fun x => lt s x) := by
        rw [List.filter_cons_of_neg (by simp [hsa'])]
      rw [hfilter] at hfuel ⊢
      have hagree : ∀ x ∈ s :: rest,
          nextSib lt (a :: rest) x = nextSib lt rest x := by
        intro x hx
        have hxa : lt x a = false := by
          rcases List.mem_cons.mp hx with rfl | hxr
          · exact hsa'
          · exact hasymm a (List.mem_cons_self a rest) x
              (List.mem_cons_of_mem a hxr) (hpair.1 x hxr)
        unfold nextSib
        simp [List.find?, hxa]
      have hclosed : ∀ x ∈ s :: rest, ∀ y,
          nextSib lt rest x = some y → y ∈ s :: rest := by
        intro x _ y hy
        exact List.mem_cons_of_mem s (List.mem_of_find?_eq_some hy)
      rw [scanAfter_congr _ _ (s :: rest) hagree hclosed fuel s
        (List.mem_cons_self s rest)]
      apply ih s fuel hpair.2
      · intro x hx y hy
        exact hasymm x (List.mem_cons_of_mem a hx) y
          (List.mem_cons_of_mem a hy)
      · intro b hb c hc
        exact htrans b (List.mem_cons_of_mem a hb) c
          (List.mem_cons_of_mem a hc)
      · exact hfuel

/-- When every entity reached by the next-sibling primitive has a readable
record, the finder loop prints exactly the first `limit - count` scanned
subscripts. -/
theorem show_multiple_eq_scanAfter (next : String → Option String)
    (details : String → Option PatientDetails)
    (hdet : ∀ c t, next c = some t → (details t).isSome = true) :
    ∀ (fuel limit count : Nat) (cur : String),
      show_multiple next details limit fuel count cur =
        (scanAfter next fuel cur).take (limit - count) := by
  intro fuel
  induction fuel with
  | zero =>
    intro limit count cur
    simp [show_multiple, scanAfter]
  | succ fuel ih =>
    intro limit count cur
    simp only [show_multiple, scanAfter]
    by_cases hc : count < limit
    · rw [if_pos hc]
      rcases hn : next cur with _ | t
      · simp
      · have hsome := hdet cur t hn
        rcases hd : details t with _ | d
        · rw [hd] at hsome
          simp at hsome
        · have hlc : limit - count = (limit - (count + 1)) + 1 := by omega
          rw [hlc, List.take_succ_cons]
          show (match details t with
              | some _ =>
                t :: show_multiple next details limit fuel (count + 1) t
              | none => show_multiple next details limit fuel count t) =
            t :: List.take (limit - (count + 1)) (scanAfter next fuel t)
          rw [hd, ih limit (count + 1) t]
    · rw [if_neg hc]
      have h0 : limit - count = 0 := by omega
      rw [h0, List.take_zero]

/-- C7: the finder's forward-only scan, which by construction consumes
only the next-sibling primitive (never a whole-set operation), started
after subscript `s` over a collation-sorted entity set with readable
records, yields exactly the entities strictly greater than `s` in
ascending order and then ends (for any fuel/limit at least the size of
that result). -/
theorem show_multiple_forward_scan (lt : String → String → Bool)
    (M : List String) (s : String)
    (details : String → Option PatientDetails) (limit fuel : Nat)
    (hpair : List.Pairwise (fun a b => lt a b = true) M)
    (hasymm : ∀ a ∈ M, ∀ b ∈ M, lt a b = true → lt b a = false)
    (htrans : ∀ b ∈ M, ∀ c ∈ M, lt s b = true → lt b c = true →
      lt s c = true)
    (hdet : ∀ x ∈ M, (details x).isSome = true)
    (hfuel : (M.filter (fun x => lt s x)).length ≤ fuel)
    (hlimit : (M.filter (fun x => lt s x)).length ≤ limit) :
    show_multiple (nextSib lt M) details limit fuel 0 s =
      M.filter (fun x => lt s x) := by
  have hdet' : ∀ c t, nextSib lt M c = some t → (details t).isSome = true :=
    fun c t h => hdet t (List.mem_of_find?_eq_some h)
  rw [show_multiple_eq_scanAfter _ _ hdet' fuel limit 0 s,
    scanAfter_nextSib_filter lt M s fuel hpair hasymm htrans hfuel,
    Nat.sub_zero]
  exact List.take_of_length_le hlimit

/-- C7 witness: the claim's example — entity set `{1, 3, 7}` under the
numeric collation, scanning after `0` with every record readable yields
`1, 3, 7` and ends. -/
theorem show_multiple_forward_scan_witness :
    show_multiple (nextSib mumpsLt ["1", "3", "7"])
        (fun i => some (PatientDetails.mk i "" "" "")) 3 3 0 "0" =
      (["1", "3", "7"] : List String).filter (fun x => mumpsLt "0" x) ∧
    (["1", "3", "7"] : List String).filter (fun x => mumpsLt "0" x) =
      ["1", "3", "7"] :=
  ⟨show_multiple_forward_scan mumpsLt ["1", "3", "7"] "0" _ 3 3
      (by decide) (by decide) (by decide) (by decide) (by decide)
      (by decide),
   by decide⟩

/-!
## C8 — HOROLOG decoding

The arithmetic and the sentinel-on-malformed behaviour hold, but the
claim's universal totality over well-formed inputs is FALSE: a well-formed
`"days,seconds"` whose arithmetic result leaves `datetime`'s representable
range (years 1..9999), or whose normalised day count leaves `timedelta`'s
±999999999 range, raises `OverflowError`, which the
`except (ValueError, AttributeError)` clause does not catch. -/

/-- A rendered timestamp is never the malformed-input sentinel (their
first characters differ). -/
theorem fmtTs_ne_sentinel (y m d h mi s : Int) :
    fmtTs y m d h mi s ≠ "<invalid HOROLOG format>" := by
  intro heq
  obtain ⟨c, rest, hc, hd⟩ := intToString_head_ok y
  have htl : (fmtTs y m d h mi s).toList =
      (intToString y).toList ++
        ("-" ++ pad2 m ++ "-" ++ pad2 d ++ " " ++ pad2 h ++ ":" ++
          pad2 mi ++ ":" ++ pad2 s).toList := by
    simp [fmtTs, String.toList, String.data_append, List.append_assoc]
  rw [heq, hc, List.cons_append] at htl
  have hhead : '<' = c := by
    have h0 : ("<invalid HOROLOG format>" : String).toList =
        '<' :: ("invalid HOROLOG format>" : String).toList := rfl
    rw [h0] at htl
    exact (List.cons.injEq _ _ _ _ ▸ htl).1
  rcases hd with hdig | hdash
  · rw [← hhead] at hdig
    exact absurd hdig (by decide)
  · rw [hdash] at hhead
    exact absurd hhead (by decide)

/-- Reduction of `horolog_to_datetime` on a well-formed input. -/
theorem horolog_eq_of_parse_some (raw : String) (d s : Int)
    (hp : horologParse raw = some (d, s)) :
    horolog_to_datetime raw =
      (if d + Int.fdiv s 86400 < -999999999 ||
          999999999 < d + Int.fdiv s 86400 then none
       else
        if daysFromCivil 1840 12 31 + (d + Int.fdiv s 86400) < dtMinDay ||
            dtMaxDay < daysFromCivil 1840 12 31 + (d + Int.fdiv s 86400) then
          none
        else
          match civilFromDays
              (daysFromCivil 1840 12 31 + (d + Int.fdiv s 86400)) with
          | (y, m, dd) =>
            some (fmtTs y m dd (Int.fmod s 86400 / 3600)
              (Int.fmod s 86400 % 3600 / 60) (Int.fmod s 86400 % 60))) := by
  unfold horolog_to_datetime
  rw [hp]

/-- Reduction of `horolog_to_datetime` on a malformed input. -/
theorem horolog_eq_of_parse_none (raw : String)
    (hp : horologParse raw = none) :
    horolog_to_datetime raw = some "<invalid HOROLOG format>" := by
  unfold horolog_to_datetime
  rw [hp]

/-- C8, counterexample: `"-700000,0"` is a well-formed `"days,seconds"`
input (integer days and seconds), yet the code raises an uncaught
`OverflowError` (modelled `none`) instead of returning the timestamp
`epoch + (-700000) days`, which lies before `datetime.min`. -/
theorem horolog_overflow_counterexample :
    horologParse "-700000,0" = some (-700000, 0) ∧
    horolog_to_datetime "-700000,0" = none := by
  constructor <;> decide

/-- C8, amended: `decodeHorolog("65369,56707")` equals the arithmetic
result `epoch(1840-12-31) + 65369 days + 56707 seconds` — the rendered
date `2019-12-22` satisfies `daysFromCivil 2019 12 22 =
daysFromCivil 1840 12 31 + 65369` (checked through the independent
civil-to-day converter, so nothing is hardcoded) and `56707 s = 15:45:07`;
every malformed input yields the sentinel string; and every well-formed
input whose day count stays inside `timedelta`'s range and whose result
stays inside `datetime`'s range returns a timestamp (never a fault and
never the sentinel).  Outside those ranges a well-formed input raises an
uncaught `OverflowError`. -/
theorem horolog_to_datetime_contract :
    (horolog_to_datetime "65369,56707" = some "2019-12-22 15:45:07" ∧
      daysFromCivil 2019 12 22 = daysFromCivil 1840 12 31 + 65369 ∧
      (56707 : Int) = 15 * 3600 + 45 * 60 + 7) ∧
    (∀ raw : String, horologParse raw = none →
      horolog_to_datetime raw = some "<invalid HOROLOG format>") ∧
    (∀ (raw : String) (d s : Int), horologParse raw = some (d, s) →
      -999999999 ≤ d + Int.fdiv s 86400 →
      d + Int.fdiv s 86400 ≤ 999999999 →
      dtMinDay ≤ daysFromCivil 1840 12 31 + (d + Int.fdiv s 86400) →
      daysFromCivil 1840 12 31 + (d + Int.fdiv s 86400) ≤ dtMaxDay →
      ∃ out : String, horolog_to_datetime raw = some out ∧
        out ≠ "<invalid HOROLOG format>") := by
  refine ⟨⟨by decide, by decide, by decide⟩, ?_, ?_⟩
  · intro raw hp
    exact horolog_eq_of_parse_none raw hp
  · intro raw d s hp h1 h2 h3 h4
    rw [horolog_eq_of_parse_some raw d s hp]
    set nd := d + Int.fdiv s 86400 with hnd
    set c0 := daysFromCivil 1840 12 31 with hc0
    have hcond1 : ¬((decide (nd < -999999999) ||
        decide (999999999 < nd)) = true) := by
      simp only [Bool.or_eq_true, decide_eq_true_eq]
      omega
    have hcond2 : ¬((decide (c0 + nd < dtMinDay) ||
        decide (dtMaxDay < c0 + nd)) = true) := by
      simp only [Bool.or_eq_true, decide_eq_true_eq]
      omega
    rw [if_neg hcond1, if_neg hcond2]
    rcases hciv : civilFromDays (c0 + nd) with ⟨y, my, dy⟩
    exact ⟨fmtTs y my dy (Int.fmod s 86400 / 3600)
      (Int.fmod s 86400 % 3600 / 60) (Int.fmod s 86400 % 60), rfl,
      fmtTs_ne_sentinel _ _ _ _ _ _⟩

/-- C8 witness: the contract's universal parts applied at the malformed
input `"junk"` and at the claim's own example input. -/
theorem horolog_to_datetime_contract_witness :
    horolog_to_datetime "junk" = some "<invalid HOROLOG format>" ∧
    ∃ out : String, horolog_to_datetime "65369,56707" = some out ∧
      out ≠ "<invalid HOROLOG format>" :=
  ⟨horolog_to_datetime_contract.2.1 "junk" (by decide),
   horolog_to_datetime_contract.2.2 "65369,56707" 65369 56707 (by decide)
     (by decide) (by decide) (by decide) (by decide)⟩
